import Mathlib

set_option maxHeartbeats 1000000

/-! Verification of the financial-dashboard data pipeline in src/app.py:
the crypto retry wrapper with exponential backoff, the multi-asset combiner
with forward/backward fill, the daily resampling step used before the
dashboard statistics, the timezone handling of the three fetchers, and the
API-client initialization. -/

variable {α : Type} {ε : Type}

/-- Outcome of one invocation of the underlying provider call
(cg.get_coin_market_chart_range_by_id wrapped in a future): it either
exceeds the hard timeout, completes with data, or raises some other
exception. -/
inductive CallOutcome (α : Type) (ε : Type) where
  | timesOut
  | returns (a : α)
  | raises (e : ε)
deriving DecidableEq

/-- Result of get_crypto_data_with_retry: a normal return (the function body
falls through with value None when the loop body never runs), the raised
TimeoutError reporting the exhausted attempt count, or a re-raised
non-timeout exception. -/
inductive RunResult (α : Type) (ε : Type) where
  | value (a : Option α)
  | exhausted (attempts : Int)
  | raised (e : ε)
deriving DecidableEq

/-- The retry loop of get_crypto_data_with_retry (src/app.py lines 53-70):
for attempt in range(max_retries), run the call under a hard timeout of
base_timeout * 2 ^ attempt; a timeout retries while attempt < max_retries - 1
and otherwise raises TimeoutError(max_retries attempts); any other exception
re-raises unchanged; a completed call returns its DataFrame.  The second
component of the result records the timeout handed to each invocation that
was actually made, in order. -/
def retryLoop (call : Nat → CallOutcome α ε) (max_retries : Int) (base_timeout : Nat) :
    Nat → Nat → RunResult α ε × List Nat
  | _, 0 => (RunResult.value none, [])
  | attempt, fuel + 1 =>
    match call attempt with
    | CallOutcome.returns a => (RunResult.value (some a), [base_timeout * 2 ^ attempt])
    | CallOutcome.raises e => (RunResult.raised e, [base_timeout * 2 ^ attempt])
    | CallOutcome.timesOut =>
      if (attempt : Int) < max_retries - 1 then
        let r := retryLoop call max_retries base_timeout (attempt + 1) fuel
        (r.1, base_timeout * 2 ^ attempt :: r.2)
      else
        (RunResult.exhausted max_retries, [base_timeout * 2 ^ attempt])

/-- get_crypto_data_with_retry (src/app.py lines 49-70): the loop starts at
attempt 0 and makes at most range(max_retries) iterations. -/
def get_crypto_data_with_retry (call : Nat → CallOutcome α ε) (max_retries : Int)
    (base_timeout : Nat) : RunResult α ε × List Nat :=
  retryLoop call max_retries base_timeout 0 max_retries.toNat

/-- The except-clause of the cached get_crypto_data wrapper (src/app.py
lines 75-80): any exception is logged and turned into None, and a normal
return is passed through. -/
def crypto_result_to_caller : RunResult α ε → Option α
  | RunResult.value v => v
  | RunResult.exhausted _ => none
  | RunResult.raised _ => none

/-- get_crypto_data (src/app.py lines 73-81): calls the retry wrapper with
its default parameters max_retries = 3, base_timeout = 15. -/
def get_crypto_data (call : Nat → CallOutcome α ε) : Option α :=
  crypto_result_to_caller (get_crypto_data_with_retry call 3 15).1

/-- The list a, a+1, ..., a+n-1 of attempt indices. -/
def natRange (a : Nat) : Nat → List Nat
  | 0 => []
  | n + 1 => a :: natRange (a + 1) n

theorem natRange_length (a n : Nat) : (natRange a n).length = n := by
  induction n generalizing a with
  | zero => rfl
  | succ n ih => simp [natRange, ih]

theorem natRange_getD (a n i : Nat) (h : i < n) : (natRange a n).getD i 0 = a + i := by
  induction n generalizing a i with
  | zero => omega
  | succ n ih =>
    cases i with
    | zero => simp [natRange]
    | succ i =>
      have h2 : (natRange (a + 1) n).getD i 0 = (a + 1) + i := ih (a + 1) i (by omega)
      show (natRange (a + 1) n).getD i 0 = a + (i + 1)
      rw [h2]
      omega

theorem getD_map_of_lt {β : Type} (f : α → β) (d : α) (d2 : β) :
    ∀ (l : List α) (i : Nat), i < l.length → (List.map f l).getD i d2 = f (l.getD i d) := by
  intro l
  induction l with
  | nil => intro i h; simp at h
  | cons a l ih =>
    intro i h
    cases i with
    | zero => rfl
    | succ i => exact ih i (by simpa using h)

theorem retryLoop_succ (call : Nat → CallOutcome α ε) (mr : Int) (base attempt fuel : Nat) :
    retryLoop call mr base attempt (fuel + 1)
      = match call attempt with
        | CallOutcome.returns a => (RunResult.value (some a), [base * 2 ^ attempt])
        | CallOutcome.raises e => (RunResult.raised e, [base * 2 ^ attempt])
        | CallOutcome.timesOut =>
          if (attempt : Int) < mr - 1 then
            ((retryLoop call mr base (attempt + 1) fuel).1,
              base * 2 ^ attempt :: (retryLoop call mr base (attempt + 1) fuel).2)
          else
            (RunResult.exhausted mr, [base * 2 ^ attempt]) := rfl

theorem retryLoop_allTimeout (call : Nat → CallOutcome α ε) (mr : Int) (base : Nat) :
    ∀ (fuel attempt : Nat), (∀ i, call i = CallOutcome.timesOut) → 0 < fuel →
      (attempt : Int) + (fuel : Int) = mr →
      retryLoop call mr base attempt fuel
        = (RunResult.exhausted mr, (natRange attempt fuel).map (fun i => base * 2 ^ i)) := by
  intro fuel
  induction fuel with
  | zero => intro attempt _ hf _; omega
  | succ f ih =>
    intro attempt h hf hsum
    cases f with
    | zero =>
      have hnlt : ¬ ((attempt : Int) < mr - 1) := by omega
      simp [retryLoop, h, hnlt, natRange]
    | succ f =>
      have hlt : (attempt : Int) < mr - 1 := by omega
      have hrec := ih (attempt + 1) h (by omega) (by push_cast; omega)
      rw [retryLoop_succ, h attempt]
      dsimp only
      rw [if_pos hlt, hrec]
      simp [natRange]

/-- Claim C1, amended: for a call that times out on every attempt and a
positive max_retries, get_crypto_data_with_retry makes exactly max_retries
attempts, hands attempt i the hard timeout base_timeout * 2 ^ i, and ends by
raising the TimeoutError reporting max_retries exhausted attempts.  (With
max_retries = 0 the loop body never runs and the function returns None
instead of raising; see the counterexample.) -/
theorem retry_exhausts_all_attempts (call : Nat → CallOutcome α ε) (mr : Int) (base : Nat)
    (h1 : 0 < mr) (h2 : ∀ i, call i = CallOutcome.timesOut) :
    ∃ tr : List Nat,
      get_crypto_data_with_retry call mr base = (RunResult.exhausted mr, tr)
        ∧ (tr.length : Int) = mr
        ∧ ∀ i : Nat, i < tr.length → tr.getD i 0 = base * 2 ^ i := by
  refine ⟨(natRange 0 mr.toNat).map (fun i => base * 2 ^ i), ?_, ?_, ?_⟩
  · unfold get_crypto_data_with_retry
    exact retryLoop_allTimeout call mr base mr.toNat 0 h2 (by omega) (by omega)
  · simp [natRange_length]
    omega
  · intro i hi
    have hi2 : i < mr.toNat := by simpa [natRange_length] using hi
    rw [getD_map_of_lt _ 0 _ _ i (by simpa [natRange_length] using hi2)]
    rw [natRange_getD 0 mr.toNat i hi2]
    simp

/-- Witness for the amended claim C1 at max_retries = 3, base_timeout = 15. -/
theorem retry_exhausts_all_attempts_witness :
    (0 : Int) < 3 ∧
      ∃ tr : List Nat,
        get_crypto_data_with_retry (fun _ => CallOutcome.timesOut : Nat → CallOutcome Unit Unit) 3 15
            = (RunResult.exhausted 3, tr)
          ∧ (tr.length : Int) = 3
          ∧ ∀ i : Nat, i < tr.length → tr.getD i 0 = 15 * 2 ^ i :=
  ⟨by decide, retry_exhausts_all_attempts _ 3 15 (by decide) (fun _ => rfl)⟩

/-- Counterexample to claim C1 as stated: with max_retries = 0 and a call
that times out on every attempt, the wrapper returns None normally rather
than raising a TimeoutError reporting 0 exhausted attempts. -/
theorem retry_zero_retries_cex :
    get_crypto_data_with_retry (fun _ => CallOutcome.timesOut : Nat → CallOutcome Unit Unit) 0 15
        = (RunResult.value none, [])
      ∧ RunResult.value (none : Option Unit) ≠ RunResult.exhausted (ε := Unit) 0 := by
  exact ⟨rfl, by decide⟩

theorem retryLoop_trace_timeouts (call : Nat → CallOutcome α ε) (mr : Int) (base : Nat) :
    ∀ (fuel attempt j : Nat),
      j + 1 < (retryLoop call mr base attempt fuel).2.length →
      call (attempt + j) = CallOutcome.timesOut := by
  intro fuel
  induction fuel with
  | zero => intro attempt j hj; simp [retryLoop] at hj
  | succ f ih =>
    intro attempt j hj
    cases hc : call attempt with
    | returns a => simp [retryLoop, hc] at hj
    | raises e => simp [retryLoop, hc] at hj
    | timesOut =>
      by_cases hlt : (attempt : Int) < mr - 1
      · simp only [retryLoop, hc, if_pos hlt, List.length_cons] at hj
        cases j with
        | zero => simpa using hc
        | succ j =>
          have := ih (attempt + 1) j (by omega)
          simpa [Nat.add_assoc, Nat.add_comm 1 j] using this
      · simp [retryLoop, hc, if_neg hlt] at hj

/-- Claim C2: a non-timeout exception raised on the first attempt is
propagated unchanged after exactly one attempt; and an attempt is ever
followed by another attempt only because it timed out (only timeout is
retried). -/
theorem retry_nontimeout_propagates :
    (∀ (call : Nat → CallOutcome α ε) (e : ε) (mr : Int) (base : Nat),
        0 < mr → call 0 = CallOutcome.raises e →
        get_crypto_data_with_retry call mr base = (RunResult.raised e, [base * 2 ^ 0]))
    ∧ (∀ (call : Nat → CallOutcome α ε) (mr : Int) (base : Nat) (j : Nat),
        j + 1 < (get_crypto_data_with_retry call mr base).2.length →
        call j = CallOutcome.timesOut) := by
  constructor
  · intro call e mr base h1 h2
    unfold get_crypto_data_with_retry
    have hk : mr.toNat = (mr.toNat - 1) + 1 := by omega
    rw [hk]
    simp [retryLoop, h2]
  · intro call mr base j hj
    have := retryLoop_trace_timeouts call mr base mr.toNat 0 j (by simpa [get_crypto_data_with_retry] using hj)
    simpa using this

/-- Witness for claim C2: a call raising exception 7 on the first attempt is
propagated unchanged with a single attempt under the default parameters. -/
theorem retry_nontimeout_propagates_witness :
    (0 : Int) < 3 ∧
      get_crypto_data_with_retry (fun _ => CallOutcome.raises 7 : Nat → CallOutcome Unit Nat) 3 15
        = (RunResult.raised 7, [15 * 2 ^ 0]) :=
  ⟨by decide, retry_nontimeout_propagates.1 _ 7 3 15 (by decide) rfl⟩

/-- Claim C10: calling get_crypto_data_with_retry with a non-positive
max_retries makes zero invocations of the underlying call (empty timeout
trace) and returns None normally, which the cached wrapper maps to the very
same None it uses to signal a failed fetch. -/
theorem retry_nonpositive_returns_none (call : Nat → CallOutcome α ε) (mr : Int) (base : Nat)
    (h : mr ≤ 0) :
    get_crypto_data_with_retry call mr base = (RunResult.value none, [])
      ∧ crypto_result_to_caller (get_crypto_data_with_retry call mr base).1 = none := by
  have h0 : mr.toNat = 0 := by omega
  unfold get_crypto_data_with_retry
  rw [h0]
  exact ⟨rfl, rfl⟩

/-- Witness for claim C10 at max_retries = -2. -/
theorem retry_nonpositive_returns_none_witness :
    (-2 : Int) ≤ 0 ∧
      (get_crypto_data_with_retry (fun _ => CallOutcome.timesOut : Nat → CallOutcome Unit Unit) (-2) 15
          = (RunResult.value none, [])
        ∧ crypto_result_to_caller
            (get_crypto_data_with_retry (fun _ => CallOutcome.timesOut : Nat → CallOutcome Unit Unit) (-2) 15).1
          = none) :=
  ⟨by decide, retry_nonpositive_returns_none _ (-2) 15 (by decide)⟩

/-- First operand if present, otherwise the second (Option.orElse
specialized, written out so the fill lemmas can unfold it by cases). -/
def orO : Option α → Option α → Option α
  | some v, _ => some v
  | none, b => b

/-- The last present value of a list of cells, scanning left to right. -/
def lastSome : List (Option α) → Option α
  | [] => none
  | a :: rest => orO (lastSome rest) a

/-- The first present value of a list of cells. -/
def firstSome : List (Option α) → Option α
  | [] => none
  | a :: rest => orO a (firstSome rest)

/-- pandas DataFrame.ffill per column: each empty cell takes the most recent
earlier value; acc is the value carried in from before the list. -/
def ffill (acc : Option α) : List (Option α) → List (Option α)
  | [] => []
  | a :: rest => orO a acc :: ffill (orO a acc) rest

/-- pandas DataFrame.bfill per column: each still-empty cell takes the
earliest later value. -/
def bfill : List (Option α) → List (Option α)
  | [] => []
  | a :: rest => orO a (firstSome rest) :: bfill rest

/-- The fill policy in the words of the spec: cell i keeps its own value or
the most recent earlier value in the same column, and only when no earlier
value exists does it take the earliest later value. -/
def fillSpecCell (cells : List (Option α)) (i : Nat) : Option α :=
  orO (lastSome (cells.take (i + 1))) (firstSome (cells.drop (i + 1)))

theorem orO_none_right (a : Option α) : orO a none = a := by
  cases a <;> rfl

theorem orO_assoc (a b c : Option α) : orO (orO a b) c = orO a (orO b c) := by
  cases a <;> rfl

theorem orO_eq_none (a b : Option α) (h : orO a b = none) : a = none ∧ b = none := by
  cases a with
  | some v => exact absurd h (by simp [orO])
  | none => exact ⟨rfl, h⟩

theorem lastSome_append (l₁ l₂ : List (Option α)) :
    lastSome (l₁ ++ l₂) = orO (lastSome l₂) (lastSome l₁) := by
  induction l₁ with
  | nil => simp [lastSome, orO_none_right]
  | cons a l₁ ih => simp [lastSome, ih, orO_assoc]

theorem ffill_length (acc : Option α) (l : List (Option α)) :
    (ffill acc l).length = l.length := by
  induction l generalizing acc with
  | nil => rfl
  | cons a l ih => simp [ffill, ih]

theorem bfill_length (l : List (Option α)) : (bfill l).length = l.length := by
  induction l with
  | nil => rfl
  | cons a l ih => simp [bfill, ih]

theorem ffill_getD (acc : Option α) (l : List (Option α)) (i : Nat) (h : i < l.length) :
    (ffill acc l).getD i none = orO (lastSome (l.take (i + 1))) acc := by
  induction l generalizing acc i with
  | nil => simp at h
  | cons a l ih =>
    cases i with
    | zero =>
      show orO a acc = orO (lastSome [a]) acc
      simp [lastSome, orO]
    | succ i =>
      have h2 := ih (orO a acc) i (by simpa using h)
      show (ffill (orO a acc) l).getD i none = orO (lastSome (a :: l.take (i + 1))) acc
      rw [h2]
      simp [lastSome, orO_assoc]

theorem firstSome_ffill_none (l : List (Option α)) :
    firstSome (ffill none l) = firstSome l := by
  induction l with
  | nil => rfl
  | cons a l ih =>
    cases a with
    | some v => rfl
    | none =>
      show firstSome (none :: ffill none l) = firstSome (none :: l)
      simpa [firstSome, orO] using ih

theorem ffill_drop_of_prefix_none (l : List (Option α)) (k : Nat)
    (h : lastSome (l.take k) = none) :
    (ffill none l).drop k = ffill none (l.drop k) := by
  induction k generalizing l with
  | zero => rfl
  | succ k ih =>
    cases l with
    | nil => rfl
    | cons a l =>
      have h2 : orO (lastSome (l.take k)) a = none := by
        simpa [lastSome] using h
      obtain ⟨hl, ha⟩ := orO_eq_none _ _ h2
      subst ha
      show (ffill none (none :: l)).drop (k + 1) = ffill none (l.drop k)
      simpa [ffill, orO] using ih l hl

theorem bfill_getD (l : List (Option α)) (i : Nat) (h : i < l.length) :
    (bfill l).getD i none = orO (l.getD i none) (firstSome (l.drop (i + 1))) := by
  induction l generalizing i with
  | nil => simp at h
  | cons a l ih =>
    cases i with
    | zero => rfl
    | succ i => exact ih i (by simpa using h)

theorem fb_spec (l : List (Option α)) (i : Nat) (h : i < l.length) :
    (bfill (ffill none l)).getD i none = fillSpecCell l i := by
  rw [bfill_getD _ i (by simpa [ffill_length] using h)]
  rw [ffill_getD none l i h, orO_none_right]
  unfold fillSpecCell
  cases hx : lastSome (l.take (i + 1)) with
  | some v => rfl
  | none =>
    show firstSome ((ffill none l).drop (i + 1)) = firstSome (l.drop (i + 1))
    rw [ffill_drop_of_prefix_none l (i + 1) hx]
    exact firstSome_ffill_none _

theorem firstSome_replicate_none (n : Nat) :
    firstSome (List.replicate n (none : Option α)) = none := by
  induction n with
  | zero => rfl
  | succ n ih => simpa [List.replicate, firstSome, orO] using ih

theorem ffill_replicate_none (n : Nat) :
    ffill none (List.replicate n (none : Option α)) = List.replicate n none := by
  induction n with
  | zero => rfl
  | succ n ih => simpa [List.replicate, ffill, orO] using ih

theorem bfill_replicate_none (n : Nat) :
    bfill (List.replicate n (none : Option α)) = List.replicate n none := by
  induction n with
  | zero => rfl
  | succ n ih =>
    simp [List.replicate, bfill, orO, firstSome_replicate_none, ih]

theorem map_const_replicate {β : Type} (l : List β) (c : Option α) :
    l.map (fun _ => c) = List.replicate l.length c := by
  induction l with
  | nil => rfl
  | cons a l ih => simp [List.replicate, ih]

/-- A fetched data frame: named columns, each a list of (timestamp, value)
observation points with the timestamps of that column. -/
abbrev Frame : Type := List (String × List (Nat × Int))

/-- Value of a column at row key k: the point with that timestamp, if any
(reindexing a column onto the outer-join index). -/
def lookupKey (k : Nat) : List (Nat × Int) → Option Int
  | [] => none
  | p :: rest => if p.1 = k then some p.2 else lookupKey k rest

/-- A column reindexed onto the given row keys, empty cells at keys the
column has no observation for. -/
def colCells (rows : List Nat) (pts : List (Nat × Int)) : List (Option Int) :=
  rows.map (fun d => lookupKey d pts)

/-- All row keys appearing in a frame. -/
def frameKeys (f : Frame) : List Nat :=
  (f.map (fun c => c.2.map Prod.fst)).flatten

/-- The outer-join row index produced by pd.concat(axis=1): the sorted,
duplicate-free union of all row keys of all frames. -/
def unionRows (frames : List Frame) : List Nat :=
  (((frames.map frameKeys).flatten).insertionSort (fun a b => a ≤ b)).dedup

/-- The combined table handed to the renderer: a row index and the named,
reindexed, gap-filled columns. -/
structure CombinedTable where
  rows : List Nat
  cols : List (String × List (Option Int))
deriving DecidableEq

/-- The combine step of get_multi_asset_data (src/app.py lines 144-155):
raise ValueError when the frame list is empty, otherwise outer-join all
frames on the union of their row keys and apply ffill then bfill to every
column. -/
def combineFrames (frames : List Frame) : Except String CombinedTable :=
  if frames.isEmpty then Except.error "No data available to combine"
  else
    Except.ok ⟨unionRows frames,
      frames.flatten.map
        (fun c => (c.1, bfill (ffill none (colCells (unionRows frames) c.2))))⟩

/-- pd.DataFrame applied to the dict of FRED fetch results (src/app.py line
140): a fetch that returned None becomes a column of NaN (a column with no
observation points) as the scalar None broadcasts; if every value is None,
pandas raises because all dict values are scalars. -/
def mk_fred_frame (results : List (String × Option (List (Nat × Int)))) : Except String Frame :=
  if results.all (fun r => r.2.isNone) && !results.isEmpty then
    Except.error "If using all scalar values, you must pass an index"
  else
    Except.ok (results.map (fun r => (r.1, r.2.getD [])))

/-- get_multi_asset_data (src/app.py lines 99-159) after the fetches: the
stock, bitcoin and ethereum frames are dropped when their fetch returned
None, the FRED frame is built from the per-series results (an uncaught
pandas error there escapes the function), and the surviving frames are
combined. -/
def get_multi_asset_data (yf_data btc_data eth_data : Option Frame)
    (fred_results : List (String × Option (List (Nat × Int)))) : Except String CombinedTable :=
  match mk_fred_frame fred_results with
  | Except.error e => Except.error e
  | Except.ok fred_data =>
    combineFrames (([yf_data, btc_data, eth_data].filterMap id) ++ [fred_data])

theorem colCells_length (rows : List Nat) (pts : List (Nat × Int)) :
    (colCells rows pts).length = rows.length := by
  simp [colCells]

/-- Claim C3: for a non-empty set of input frames the combiner outputs a
table whose row key set is the union of all input row keys, and fills each
column independently so that cell i holds its own value or the most recent
earlier value of the column, and only when no earlier value exists the
earliest later value. -/
theorem combiner_outer_join_fill (frames : List Frame) (h : frames ≠ []) :
    ∃ t : CombinedTable, combineFrames frames = Except.ok t
      ∧ (∀ k : Nat, k ∈ t.rows ↔ ∃ fr ∈ frames, ∃ c ∈ fr, k ∈ c.2.map Prod.fst)
      ∧ t.cols.length = frames.flatten.length
      ∧ ∀ j i : Nat, j < t.cols.length → i < t.rows.length →
          (t.cols.getD j ("", [])).2.getD i none
            = fillSpecCell (colCells t.rows (frames.flatten.getD j ("", [])).2) i := by
  have hne : frames.isEmpty = false := by
    cases frames with
    | nil => exact absurd rfl h
    | cons a l => rfl
  refine ⟨⟨unionRows frames,
      frames.flatten.map
        (fun c => (c.1, bfill (ffill none (colCells (unionRows frames) c.2))))⟩, ?_, ?_, ?_, ?_⟩
  · simp [combineFrames, hne]
  · intro k
    show k ∈ unionRows frames ↔ _
    simp only [unionRows, List.mem_dedup]
    rw [(List.perm_insertionSort _ _).mem_iff]
    simp [frameKeys, List.mem_flatten]
    constructor
    · rintro ⟨fr, hfr, l, ⟨n, pts, hc, rfl⟩, hk⟩
      rcases List.mem_map.mp hk with ⟨p, hp, hpk⟩
      exact ⟨fr, hfr, n, pts, hc, ⟨p.2, by simpa [← hpk] using hp⟩⟩
    · rintro ⟨fr, hfr, n, pts, hc, x, hx⟩
      exact ⟨fr, hfr, List.map Prod.fst pts, ⟨n, pts, hc, rfl⟩,
        List.mem_map.mpr ⟨(k, x), hx, rfl⟩⟩
  · exact List.length_map _ _
  · intro j i hj hi
    simp only [List.length_map] at hj
    show ((frames.flatten.map
        (fun c => (c.1, bfill (ffill none (colCells (unionRows frames) c.2))))).getD j ("", [])).2.getD i none = _
    rw [getD_map_of_lt _ ("", []) ("", []) _ j hj]
    exact fb_spec _ i (by simpa [colCells_length] using hi)

/-- Witness for claim C3 on the three-series scenario of the spec. -/
theorem combiner_outer_join_fill_witness :
    ([[("Equities", [(1, 100), (3, 102)])],
      [("Crypto", [(1, 50000), (2, 50500), (3, 50300)])],
      [("Macro", [(1, 35)])]] : List Frame) ≠ [] ∧
      ∃ t : CombinedTable,
        combineFrames [[("Equities", [(1, 100), (3, 102)])],
          [("Crypto", [(1, 50000), (2, 50500), (3, 50300)])],
          [("Macro", [(1, 35)])]] = Except.ok t
          ∧ (∀ k : Nat, k ∈ t.rows ↔ ∃ fr ∈ ([[("Equities", [(1, 100), (3, 102)])],
              [("Crypto", [(1, 50000), (2, 50500), (3, 50300)])],
              [("Macro", [(1, 35)])]] : List Frame), ∃ c ∈ fr, k ∈ c.2.map Prod.fst)
          ∧ t.cols.length = ([[("Equities", [(1, 100), (3, 102)])],
              [("Crypto", [(1, 50000), (2, 50500), (3, 50300)])],
              [("Macro", [(1, 35)])]] : List Frame).flatten.length
          ∧ ∀ j i : Nat, j < t.cols.length → i < t.rows.length →
              (t.cols.getD j ("", [])).2.getD i none
                = fillSpecCell (colCells t.rows (([[("Equities", [(1, 100), (3, 102)])],
                    [("Crypto", [(1, 50000), (2, 50500), (3, 50300)])],
                    [("Macro", [(1, 35)])]] : List Frame).flatten.getD j ("", [])).2) i :=
  ⟨by decide, combiner_outer_join_fill _ (by decide)⟩

/-- Claim C5: the combine step fails with the explicit ValueError message
when its input frame list is empty, so an empty input is never returned to
the renderer as a table. -/
theorem combiner_empty_input_errors (frames : List Frame) (h : frames = []) :
    combineFrames frames = Except.error "No data available to combine" := by
  subst h
  rfl

/-- Witness for claim C5 at the empty frame list. -/
theorem combiner_empty_input_errors_witness :
    combineFrames [] = Except.error "No data available to combine" :=
  combiner_empty_input_errors [] rfl

/-- Counterexample to claim C4 as stated: with every whole-frame fetch
failed and the FRED series "A" failed but "B" fetched, the combined table
still contains a column named "A" consisting only of empty cells — a failed
series represented as an all-NaN column, not excluded. -/
theorem fred_failed_series_nan_column_cex :
    get_multi_asset_data none none none [("A", none), ("B", some [(0, 2)])]
        = Except.ok ⟨[0], [("A", [none]), ("B", [some 2])]⟩
      ∧ ¬ ∀ c ∈ [("A", [(none : Option Int)]), ("B", [some 2])], c.1 = "B" := by
  constructor
  · rfl
  · intro hall
    have := hall ("A", [none]) (by simp)
    exact absurd this (by decide)

theorem map_fst_preserved {A B D : Type} (F : A × B → A × D) (hF : ∀ c, (F c).1 = c.1)
    (l : List (A × B)) : (l.map F).map Prod.fst = l.map Prod.fst := by
  induction l with
  | nil => rfl
  | cons a l ih => simp [ih, hF]

/-- Claim C4, amended: when at least one FRED series fetched, the run
succeeds and the combined table's columns are exactly those of the
successfully fetched stock/bitcoin/ethereum frames followed by one column
per FRED series — including an all-NaN column for each FRED series whose
fetch failed; a failed stock, bitcoin or ethereum frame is excluded.  (When
every FRED series fails, the pandas DataFrame construction raises and the
whole run aborts regardless of the other sources.) -/
theorem multi_asset_columns (yf_data btc_data eth_data : Option Frame)
    (fred_results : List (String × Option (List (Nat × Int))))
    (hf : ∃ r ∈ fred_results, r.2.isSome = true) :
    ∃ t : CombinedTable,
      get_multi_asset_data yf_data btc_data eth_data fred_results = Except.ok t
        ∧ t.cols.map Prod.fst
            = ([yf_data, btc_data, eth_data].filterMap id).flatten.map Prod.fst
                ++ fred_results.map Prod.fst
        ∧ ∀ r ∈ fred_results, r.2 = none →
            (r.1, List.replicate t.rows.length (none : Option Int)) ∈ t.cols := by
  obtain ⟨r0, hr0, hs0⟩ := hf
  have hfredF : mk_fred_frame fred_results
      = Except.ok (fred_results.map (fun r => (r.1, r.2.getD []))) := by
    unfold mk_fred_frame
    rw [if_neg]
    intro hcond
    simp only [Bool.and_eq_true, List.all_eq_true] at hcond
    have h1 := hcond.1 r0 hr0
    rw [Option.isNone_iff_eq_none] at h1
    rw [h1] at hs0
    simp at hs0
  have hmain : get_multi_asset_data yf_data btc_data eth_data fred_results
      = combineFrames (([yf_data, btc_data, eth_data].filterMap id)
          ++ [fred_results.map (fun r => (r.1, r.2.getD []))]) := by
    unfold get_multi_asset_data
    rw [hfredF]
  have hne : (([yf_data, btc_data, eth_data].filterMap id)
      ++ [fred_results.map (fun r => (r.1, r.2.getD []))]).isEmpty = false := by
    cases List.filterMap id [yf_data, btc_data, eth_data] <;> rfl
  refine ⟨⟨unionRows (([yf_data, btc_data, eth_data].filterMap id)
      ++ [fred_results.map (fun r => (r.1, r.2.getD []))]),
      (([yf_data, btc_data, eth_data].filterMap id)
        ++ [fred_results.map (fun r => (r.1, r.2.getD []))]).flatten.map
        (fun c => (c.1, bfill (ffill none (colCells
          (unionRows (([yf_data, btc_data, eth_data].filterMap id)
            ++ [fred_results.map (fun r => (r.1, r.2.getD []))])) c.2))))⟩, ?_, ?_, ?_⟩
  · rw [hmain]
    simp [combineFrames, hne]
  · rw [show (List.filterMap id [yf_data, btc_data, eth_data]
        ++ [fred_results.map (fun r => (r.1, r.2.getD []))]).flatten
        = (List.filterMap id [yf_data, btc_data, eth_data]).flatten
            ++ fred_results.map (fun r => (r.1, r.2.getD [])) from by
      rw [List.flatten_append]
      simp]
    rw [List.map_append, List.map_append]
    have hm1 : ((List.filterMap id [yf_data, btc_data, eth_data]).flatten.map
        (fun c => (c.1, bfill (ffill none (colCells (unionRows
          (List.filterMap id [yf_data, btc_data, eth_data]
            ++ [fred_results.map (fun r => (r.1, r.2.getD []))])) c.2))))).map Prod.fst
        = (List.filterMap id [yf_data, btc_data, eth_data]).flatten.map Prod.fst :=
      by apply map_fst_preserved; intro c; rfl
    have hm2 : ((fred_results.map (fun r => (r.1, r.2.getD []))).map
        (fun c => (c.1, bfill (ffill none (colCells (unionRows
          (List.filterMap id [yf_data, btc_data, eth_data]
            ++ [fred_results.map (fun r => (r.1, r.2.getD []))])) c.2))))).map Prod.fst
        = (fred_results.map (fun r => (r.1, r.2.getD []))).map Prod.fst :=
      by apply map_fst_preserved; intro c; rfl
    have hm3 : (fred_results.map (fun r => (r.1, r.2.getD []))).map Prod.fst
        = fred_results.map Prod.fst :=
      by apply map_fst_preserved; intro c; rfl
    rw [hm1, hm2, hm3]
  · intro r hr hrnone
    show (r.1, List.replicate (unionRows _).length (none : Option Int)) ∈ List.map _ _
    have hmem : (r.1, ([] : List (Nat × Int)))
        ∈ (([yf_data, btc_data, eth_data].filterMap id)
            ++ [fred_results.map (fun r => (r.1, r.2.getD []))]).flatten := by
      rw [List.flatten_append]
      apply List.mem_append_right
      have := List.mem_map_of_mem (fun r => (r.1, r.2.getD [])) hr
      simpa [hrnone] using this
    have heq : ((fun c => (c.1, bfill (ffill none (colCells
        (unionRows (([yf_data, btc_data, eth_data].filterMap id)
          ++ [fred_results.map (fun r => (r.1, r.2.getD []))])) c.2))))
            (r.1, ([] : List (Nat × Int))))
        = (r.1, List.replicate (unionRows (([yf_data, btc_data, eth_data].filterMap id)
            ++ [fred_results.map (fun r => (r.1, r.2.getD []))])).length
            (none : Option Int)) := by
    -- an absent column reindexes to all-empty cells and the fill keeps them empty
      simp [colCells, lookupKey, map_const_replicate, ffill_replicate_none,
        bfill_replicate_none]
    rw [← heq]
    exact List.mem_map_of_mem _ hmem

/-- Witness for the amended claim C4: stocks fetched, bitcoin and ethereum
failed, FRED series "A" failed and "C" fetched. -/
theorem multi_asset_columns_witness :
    (∃ r ∈ [("A", (none : Option (List (Nat × Int)))), ("C", some [(1, 5)])],
        r.2.isSome = true) ∧
      ∃ t : CombinedTable,
        get_multi_asset_data (some [("S", [(0, 10)])]) none none
            [("A", none), ("C", some [(1, 5)])] = Except.ok t
          ∧ t.cols.map Prod.fst
              = ([some [("S", [(0, 10)])], none, none].filterMap id).flatten.map Prod.fst
                  ++ [("A", (none : Option (List (Nat × Int)))), ("C", some [(1, 5)])].map Prod.fst
          ∧ ∀ r ∈ [("A", (none : Option (List (Nat × Int)))), ("C", some [(1, 5)])],
              r.2 = none →
              (r.1, List.replicate t.rows.length (none : Option Int)) ∈ t.cols :=
  ⟨by decide, multi_asset_columns _ _ _ _ (by decide)⟩

/-- One day bucket of pandas resample('D').last() (src/app.py line 164):
the last non-empty cell among the rows whose timestamp (in hours) falls in
day d. -/
def dayCell (rows : List Nat) (cells : List (Option Int)) (d : Nat) : Option Int :=
  lastSome ((rows.zip cells).filterMap
    (fun p => if p.1 / 24 = d then some p.2 else none))

/-- The daily bins pandas resample('D') produces: every calendar day from
the day of the first row to the day of the last row, whether or not any row
falls in it. -/
def dayList : List Nat → List Nat
  | [] => []
  | r :: rest => natRange (r / 24) ((r :: rest).getLastD 0 / 24 + 1 - r / 24)

/-- One column of data.resample('D').last(). -/
def dailyLastCol (rows : List Nat) (cells : List (Option Int)) : List (Option Int) :=
  (dayList rows).map (dayCell rows cells)

/-- daily_data = data.resample('D').last() in display_dashboard (src/app.py
line 164), applied to a combined table. -/
def resampleDailyLast (t : CombinedTable) : CombinedTable :=
  ⟨dayList t.rows, t.cols.map (fun c => (c.1, dailyLastCol t.rows c.2))⟩

/-- Counterexample to claim C6 as stated: a pipeline run whose combined
table has rows only at hours 0 and 48 yields a daily table with an empty
cell at day 1 — inside the window where the source has data — so the table
handed to the statistics is not gap-free and day 1 does not carry the last
known value forward. -/
theorem daily_resample_gap_cex :
    get_multi_asset_data none none none [("B", some [(0, 2), (48, 3)])]
        = Except.ok ⟨[0, 48], [("B", [some 2, some 3])]⟩
      ∧ resampleDailyLast ⟨[0, 48], [("B", [some 2, some 3])]⟩
          = ⟨[0, 1, 2], [("B", [some 2, none, some 3])]⟩ :=
  ⟨rfl, rfl⟩

/-- Claim C6, amended: resample('D').last() produces one row per calendar
day from the first to the last row (daily alignment), each column taking
the last observation within each day; a day in that window containing no
row yields an empty cell, so the daily table is gap-free only on days that
contain at least one observation. -/
theorem daily_resample_alignment (t : CombinedTable) (h : t.rows ≠ []) :
    (resampleDailyLast t).rows
        = natRange (t.rows.headD 0 / 24) (t.rows.getLastD 0 / 24 + 1 - t.rows.headD 0 / 24)
      ∧ (∀ c ∈ t.cols,
          (c.1, (dayList t.rows).map (dayCell t.rows c.2)) ∈ (resampleDailyLast t).cols)
      ∧ ∀ c ∈ t.cols, ∀ i : Nat, i < (dayList t.rows).length →
          (∀ r ∈ t.rows, r / 24 ≠ (dayList t.rows).getD i 0) →
          (dailyLastCol t.rows c.2).getD i none = none := by
  obtain ⟨rows, cols⟩ := t
  refine ⟨?_, ?_, ?_⟩
  · show dayList rows = _
    cases rows with
    | nil => exact absurd rfl h
    | cons r rest => rfl
  · intro c hc
    exact List.mem_map_of_mem _ hc
  · intro c hc i hi hday
    show (dailyLastCol rows c.2).getD i none = none
    rw [dailyLastCol]
    rw [getD_map_of_lt (dayCell rows c.2) 0 none (dayList rows) i hi]
    unfold dayCell
    have hempty : (rows.zip c.2).filterMap
        (fun p => if p.1 / 24 = (dayList rows).getD i 0 then some p.2 else none) = [] := by
      rw [List.filterMap_eq_nil_iff]
      intro p hp
      obtain ⟨x, y⟩ := p
      have hx : x ∈ rows := (List.of_mem_zip hp).1
      show (if x / 24 = (dayList rows).getD i 0 then some y else none) = none
      rw [if_neg (hday x hx)]
    rw [hempty]
    rfl

/-- Witness for the amended claim C6 on the two-row table of the
counterexample run. -/
theorem daily_resample_alignment_witness :
    ((⟨[0, 48], [("B", [some 2, some 3])]⟩ : CombinedTable).rows ≠ []) ∧
      ((resampleDailyLast ⟨[0, 48], [("B", [some 2, some 3])]⟩).rows
          = natRange ((⟨[0, 48], [("B", [some 2, some 3])]⟩ : CombinedTable).rows.headD 0 / 24)
              ((⟨[0, 48], [("B", [some 2, some 3])]⟩ : CombinedTable).rows.getLastD 0 / 24 + 1
                - (⟨[0, 48], [("B", [some 2, some 3])]⟩ : CombinedTable).rows.headD 0 / 24)
        ∧ (∀ c ∈ (⟨[0, 48], [("B", [some 2, some 3])]⟩ : CombinedTable).cols,
            (c.1, (dayList (⟨[0, 48], [("B", [some 2, some 3])]⟩ : CombinedTable).rows).map
                (dayCell (⟨[0, 48], [("B", [some 2, some 3])]⟩ : CombinedTable).rows c.2))
              ∈ (resampleDailyLast ⟨[0, 48], [("B", [some 2, some 3])]⟩).cols)
        ∧ ∀ c ∈ (⟨[0, 48], [("B", [some 2, some 3])]⟩ : CombinedTable).cols, ∀ i : Nat,
            i < (dayList (⟨[0, 48], [("B", [some 2, some 3])]⟩ : CombinedTable).rows).length →
            (∀ r ∈ (⟨[0, 48], [("B", [some 2, some 3])]⟩ : CombinedTable).rows,
              r / 24 ≠ (dayList (⟨[0, 48], [("B", [some 2, some 3])]⟩ : CombinedTable).rows).getD i 0) →
            (dailyLastCol (⟨[0, 48], [("B", [some 2, some 3])]⟩ : CombinedTable).rows c.2).getD i none
              = none) :=
  ⟨by decide, daily_resample_alignment ⟨[0, 48], [("B", [some 2, some 3])]⟩ (by decide)⟩

/-- A pandas timestamp as the pipeline sees it: naive (no timezone), aware
with an explicit UTC offset (the instant stored in UTC), or NaT. -/
inductive Stamp where
  | naive (t : Int)
  | aware (t : Int)
  | nat
deriving DecidableEq

/-- Whether a timestamp carries an explicit UTC offset. -/
def isAware : Stamp → Bool
  | Stamp.naive _ => false
  | Stamp.aware _ => true
  | Stamp.nat => false

/-- How a target timezone classifies one naive local timestamp: uniquely
convertible with the given offset, ambiguous (a DST fold), or non-existent
(a DST gap) shifting forward to the given UTC instant. -/
inductive LocalKind where
  | unique (offset : Int)
  | ambiguousTime
  | nonexistentTime (shiftedUtc : Int)

/-- pandas DatetimeIndex.tz_localize(tz, ambiguous='NaT',
nonexistent='shift_forward') over a timezone given by its classification of
each naive timestamp: a unique time converts with its offset, an ambiguous
time becomes NaT (the row is kept, not dropped), a non-existent time is
shifted forward. -/
def tz_localize (zone : Int → LocalKind) (idx : List Int) : List Stamp :=
  idx.map (fun t =>
    match zone t with
    | LocalKind.unique off => Stamp.aware (t - off)
    | LocalKind.ambiguousTime => Stamp.nat
    | LocalKind.nonexistentTime s => Stamp.aware s)

/-- UTC has no DST: every naive timestamp is unique with offset 0. -/
def utcZone : Int → LocalKind := fun _ => LocalKind.unique 0

/-- The index transform of get_fred_data (src/app.py line 91):
data.index.tz_localize('UTC', ambiguous='NaT', nonexistent='shift_forward')
applied to the naive index the provider returned. -/
def get_fred_data_index (idx : List Int) : List Stamp := tz_localize utcZone idx

/-- The index transform of get_stock_data (src/app.py line 42):
data.index.tz_convert('UTC') keeps an already-aware index (as UTC
instants) and raises on a naive one, which the except-clause turns into
None. -/
def get_stock_data_index (idx : List Stamp) : Option (List Stamp) :=
  if idx.all isAware then some idx else none

/-- The index built by get_crypto_data_with_retry (src/app.py line 60):
pd.to_datetime(ms, unit='ms', utc=True) makes every epoch-millisecond
timestamp an aware UTC instant. -/
def crypto_index (ms : List Nat) : List Stamp := ms.map (fun m => Stamp.aware (Int.ofNat m))

/-- The instants of the aware entries of an index, in order. -/
def awareValues (l : List Stamp) : List Int :=
  l.filterMap (fun s =>
    match s with
    | Stamp.aware t => some t
    | Stamp.naive _ => none
    | Stamp.nat => none)

/-- Whether a list of instants is strictly increasing. -/
def ascending : List Int → Bool
  | [] => true
  | [_] => true
  | a :: b :: r => if a < b then ascending (b :: r) else false

theorem awareValues_map_aware (l : List Int) : awareValues (l.map Stamp.aware) = l := by
  induction l with
  | nil => rfl
  | cons a l ih => simpa [awareValues] using ih

/-- Counterexample to claim C7 as stated: a provider returning the
non-chronological naive index [2, 1] is localized to the UTC index
[2, 1] unchanged and unsorted — the fetcher does not coerce it to a
monotonic index. -/
theorem fred_localize_not_monotonic_cex :
    get_fred_data_index [2, 1] = [Stamp.aware 2, Stamp.aware 1]
      ∧ ascending (awareValues (get_fred_data_index [2, 1])) = false :=
  ⟨rfl, rfl⟩

/-- Claim C7, amended: get_fred_data localizes a naive index to UTC in
place — every timestamp becomes aware with the same instant, none is ever
NaT (under the UTC target no timestamp is ambiguous or non-existent, so the
declared NaT/shift-forward policies never fire), order is preserved, and
the result is monotonic exactly when the provider's index already was. -/
theorem fred_localize_utc_in_place (idx : List Int) :
    get_fred_data_index idx = idx.map Stamp.aware
      ∧ Stamp.nat ∉ get_fred_data_index idx
      ∧ ascending (awareValues (get_fred_data_index idx)) = ascending idx := by
  have hmap : get_fred_data_index idx = idx.map Stamp.aware := by
    unfold get_fred_data_index tz_localize utcZone
    simp
  refine ⟨hmap, ?_, ?_⟩
  · rw [hmap]
    intro hmem
    rcases List.mem_map.mp hmem with ⟨t, _, ht⟩
    exact absurd ht (by simp)
  · rw [hmap, awareValues_map_aware]

/-- Claim C8: every index any of the three fetchers hands onward is made of
aware UTC timestamps only — the stock fetcher returns an index only when
every entry was aware, the crypto fetcher builds aware instants from epoch
milliseconds, and the FRED fetcher localizes everything to UTC. -/
theorem fetched_series_timestamps_aware :
    (∀ (idx : List Stamp) (s : List Stamp),
        get_stock_data_index idx = some s → s.all isAware = true)
      ∧ (∀ ms : List Nat, (crypto_index ms).all isAware = true)
      ∧ ∀ idx : List Int, (get_fred_data_index idx).all isAware = true := by
  refine ⟨?_, ?_, ?_⟩
  · intro idx s hs
    unfold get_stock_data_index at hs
    by_cases hall : idx.all isAware
    · rw [if_pos hall] at hs
      cases hs
      exact hall
    · rw [if_neg hall] at hs
      cases hs
  · intro ms
    rw [List.all_eq_true]
    intro x hx
    rcases List.mem_map.mp hx with ⟨m, _, hm⟩
    rw [← hm]
    rfl
  · intro idx
    rw [List.all_eq_true]
    intro x hx
    rcases List.mem_map.mp hx with ⟨t, _, ht⟩
    rw [← ht]
    rfl

/-- Witness for claim C8 on concrete indexes from each fetcher. -/
theorem fetched_series_timestamps_aware_witness :
    ([Stamp.aware 3].all isAware = true)
      ∧ ((crypto_index [1700000000000]).all isAware = true)
      ∧ ((get_fred_data_index [5]).all isAware = true) :=
  ⟨fetched_series_timestamps_aware.1 [Stamp.aware 3] [Stamp.aware 3] rfl,
    fetched_series_timestamps_aware.2.1 [1700000000000],
    fetched_series_timestamps_aware.2.2 [5]⟩

/-- init_api_clients (src/app.py lines 26-34): build the CoinGecko client,
read the FRED API key from st.secrets (a missing key raises KeyError), and
build the Fred client; any exception in the try-block logs the cause and
returns (None, None) for BOTH clients.  The second component is the list of
error messages shown to the user. -/
def init_api_clients (cgInit : Except String Unit) (secrets : String → Option String)
    (fredInit : String → Except String Unit) : (Option Unit × Option Unit) × List String :=
  match cgInit with
  | Except.error e => ((none, none), [e])
  | Except.ok _ =>
    match secrets "fred_api_key" with
    | none => ((none, none), ["KeyError: fred_api_key"])
    | some k =>
      match fredInit k with
      | Except.error e => ((none, none), [e])
      | Except.ok _ => ((some (), some ()), [])

/-- The guard in main (src/app.py lines 218-226): get_multi_asset_data runs
and the dashboard renders only when BOTH clients are present. -/
def main_fetches (clients : Option Unit × Option Unit) : Bool :=
  clients.1.isSome && clients.2.isSome

/-- Counterexample to claim C9 as stated: the CoinGecko client initializes
fine while the FRED key is missing, yet both clients come back None and
main fetches and renders nothing — the failure does not abort only the FRED
source; the independent crypto/stock sources are aborted too. -/
theorem init_clients_single_failure_cex :
    init_api_clients (Except.ok ()) (fun _ => none) (fun _ => Except.ok ())
        = ((none, none), ["KeyError: fred_api_key"])
      ∧ main_fetches
          (init_api_clients (Except.ok ()) (fun _ => none) (fun _ => Except.ok ())).1 = false :=
  ⟨rfl, rfl⟩

/-- Claim C9, amended: when any step of client initialization fails (the
CoinGecko constructor, the secrets lookup, or the Fred constructor), the
failure is reported with its specific cause, but BOTH clients are set to
None and main aborts the entire render: no source fetches. -/
theorem init_clients_failure_aborts_all (cgInit : Except String Unit)
    (secrets : String → Option String) (fredInit : String → Except String Unit)
    (hfail : (∃ e, cgInit = Except.error e)
      ∨ secrets "fred_api_key" = none
      ∨ ∃ k e, secrets "fred_api_key" = some k ∧ fredInit k = Except.error e) :
    (init_api_clients cgInit secrets fredInit).1 = (none, none)
      ∧ main_fetches (init_api_clients cgInit secrets fredInit).1 = false
      ∧ (init_api_clients cgInit secrets fredInit).2 ≠ [] := by
  cases cgInit with
  | error e => exact ⟨rfl, rfl, by simp [init_api_clients]⟩
  | ok u =>
    cases hsec : secrets "fred_api_key" with
    | none =>
      refine ⟨?_, ?_, ?_⟩ <;> simp [init_api_clients, main_fetches, hsec]
    | some k =>
      rcases hfail with ⟨e, he⟩ | hnone | ⟨k2, e2, hk2, hf2⟩
      · cases he
      · rw [hsec] at hnone
        cases hnone
      · rw [hsec] at hk2
        cases hk2
        refine ⟨?_, ?_, ?_⟩ <;> simp [init_api_clients, main_fetches, hsec, hf2]

/-- Witness for the amended claim C9: CoinGecko fine, FRED key missing. -/
theorem init_clients_failure_aborts_all_witness :
    ((init_api_clients (Except.ok ()) (fun _ => (none : Option String))
        (fun _ => Except.ok ())).1 = (none, none))
      ∧ main_fetches (init_api_clients (Except.ok ()) (fun _ => (none : Option String))
          (fun _ => Except.ok ())).1 = false
      ∧ (init_api_clients (Except.ok ()) (fun _ => (none : Option String))
          (fun _ => Except.ok ())).2 ≠ [] :=
  init_clients_failure_aborts_all (Except.ok ()) (fun _ => none) (fun _ => Except.ok ())
    (Or.inr (Or.inl rfl))
